import Mathlib

/-!
Shallow embedding of `ec2api/api/common.py`: the `UniversalDescriber` reconciliation
engine, its filter evaluator (`filtered_out`), the tag-augmenting subclass
`TaggableItemsDescriber`, and the local-only variant `NonOpenstackItemsDescriber`.

Modelling conventions:
* Python dicts used as records become association lists; dict construction with
  "last write wins" becomes an update/fold with the same observable lookup.
* Mutable instance state threaded through `describe` becomes an explicit
  `PassState` record; the create/delete side effects against the store become
  `createLog` / `deleteLog` entries (the order of the log is the execution order).
* Python exceptions become `Except`/`Option` error values: an error result from a
  loop means the loop stopped there, leaving the state accumulated so far.
* The overridable methods of the abstract class (`format`, `post_format`,
  `is_filtering_value_found`, the external item fetch and the id generator of
  `auto_create_db_item`) are fields of a `Hooks` structure, mirroring subclassing.
-/

namespace Ec2

/-- A persisted shadow record: `{'id': ..., 'os_id': ...}` (other attributes are
irrelevant to `common.py` itself). -/
structure LocalRecord where
  id : String
  os_id : String
deriving DecidableEq, Repr

/-- An external (OpenStack-side) item, exposing `get_id` / `get_name` accessors. -/
structure OsItem where
  id : String
  name : String
deriving DecidableEq, Repr

/-- A tag row as returned by `db_api.get_tags`: `{'item_id': ..., 'key': ..., 'value': ...}`. -/
structure TagRecord where
  item_id : String
  key : String
  value : String
deriving DecidableEq, Repr

/-- An element of a collection-valued field of a projected record
(e.g. one `{'key': k, 'value': v}` entry of a `tagSet`). -/
abbrev SubDict := List (String × String)

/-- A value stored in a projected record: either a plain string or a collection
of sub-dictionaries (the only shapes `filtered_out` / the tag matcher touch). -/
inductive FieldVal where
  | str (s : String)
  | coll (l : List SubDict)
deriving DecidableEq, Repr

/-- A projected (client-facing) record: a Python dict keyed by output field name. -/
abbrev ProjectedRecord := List (String × FieldVal)

/-- A filter value: a plain string pattern, or the structured tag predicate
`{'key': K, 'value': [...]}` produced by the `tag:<K>` rewrite. -/
inductive FilterVal where
  | str (s : String)
  | dict (key : String) (value : List FilterVal)
deriving Repr

/-- One filter: `{'name': ..., 'value': [v1, v2, ...]}`. -/
structure Filter where
  name : String
  value : List FilterVal
deriving Repr

/-- A `FILTER_MAP` entry: either a simple attribute path or a compound
`[collection, element]` path (a Python list value in the map). -/
inductive FilterTarget where
  | simple (path : String)
  | compound (collection elem : String)
deriving DecidableEq, Repr

/-- Python-level exceptions that the filtering / hook code can raise. -/
inductive PyErr where
  | invalidFilter (value : String)
  | typeError
  | keyError (k : String)
  | attributeError
deriving DecidableEq, Repr

/-- Outcome classification of a whole `describe` call: either a Python-level
exception escaping from the pairing loop, or the final Not-Found raise. -/
inductive DescribeErr where
  | py (e : PyErr)
  | notFound (kind ident : String)
deriving DecidableEq, Repr

/-- Whether the call aborted inside the pairing loop (before the cleanup step). -/
def DescribeErr.isPyAbort : Option DescribeErr → Bool
  | some (.py _) => true
  | _ => false

/-! ### `fnmatch.fnmatch` — glob matching used by `is_filtering_value_found`

Modelled from the spec: `fnmatch` is a Python standard-library collaborator, the
spec describes it as "wildcard equality (case-sensitive glob matching supporting
`*`, `?`, character classes)"; the implementation below realizes exactly that. -/

/-- One compiled glob-pattern token. -/
inductive GlobTok where
  | lit (c : Char)
  | anyOne
  | star
  | cls (neg : Bool) (ranges : List (Char × Char))
deriving DecidableEq, Repr

/-- Scan the body of a `[...]` character class; returns the collected
(lo, hi) ranges and the rest of the pattern, or `none` if the class is
unclosed (in which case `[` is treated as a literal, as `fnmatch` does). -/
def scanClassBody (fuel : Nat) (cs : List Char) (acc : List (Char × Char)) :
    Option (List (Char × Char) × List Char) :=
  match fuel, cs with
  | 0, _ => none
  | _, [] => none
  | fuel + 1, ']' :: rest => if acc.isEmpty then scanClassBody fuel rest [(']', ']')] else some (acc, rest)
  | fuel + 1, a :: '-' :: b :: rest =>
    if b = ']' then scanClassBody fuel (']' :: rest) (('-', '-') :: (a, a) :: acc)
    else scanClassBody fuel rest ((a, b) :: acc)
  | fuel + 1, a :: rest => scanClassBody fuel rest ((a, a) :: acc)

/-- Compile a glob pattern into tokens (`fuel` bounds the recursion;
callers pass the pattern length, which always suffices). -/
def compileGlob (fuel : Nat) (cs : List Char) : List GlobTok :=
  match fuel, cs with
  | 0, _ => []
  | _, [] => []
  | fuel + 1, '*' :: rest => .star :: compileGlob fuel rest
  | fuel + 1, '?' :: rest => .anyOne :: compileGlob fuel rest
  | fuel + 1, '[' :: rest =>
    let (neg, body) :=
      match rest with
      | '!' :: r => (true, r)
      | r => (false, r)
    match scanClassBody (body.length + 1) body [] with
    | some (ranges, rest') => .cls neg ranges :: compileGlob fuel rest'
    | none => .lit '[' :: compileGlob fuel rest
  | fuel + 1, c :: rest => .lit c :: compileGlob fuel rest

/-- Does character `c` fall in one of the class ranges? -/
def memRanges (ranges : List (Char × Char)) (c : Char) : Bool :=
  ranges.any fun r => r.1 ≤ c ∧ c ≤ r.2

/-- Match a compiled glob pattern against a string (anchored at both ends,
like `fnmatch`'s `re.match(... + r'\Z')`). Structural on `fuel`, which bounds
`ts.length + s.length`; every call strictly decreases that sum, so the fuel
passed by `globMatch` always suffices. -/
def globMatchAux : Nat → List GlobTok → List Char → Bool
  | 0, _, _ => false
  | _ + 1, [], [] => true
  | _ + 1, [], _ :: _ => false
  | fuel + 1, .star :: ts, [] => globMatchAux fuel ts []
  | fuel + 1, .star :: ts, c :: s =>
    globMatchAux fuel ts (c :: s) || globMatchAux fuel (.star :: ts) s
  | fuel + 1, .anyOne :: ts, _ :: s => globMatchAux fuel ts s
  | _ + 1, .anyOne :: _, [] => false
  | fuel + 1, .lit c :: ts, c' :: s => c = c' && globMatchAux fuel ts s
  | _ + 1, .lit _ :: _, [] => false
  | fuel + 1, .cls neg ranges :: ts, c :: s =>
    (memRanges ranges c ≠ neg) && globMatchAux fuel ts s
  | _ + 1, .cls _ _ :: _, [] => false

/-- Top-level glob match with sufficient fuel. -/
def globMatch (ts : List GlobTok) (s : List Char) : Bool :=
  globMatchAux (ts.length + s.length + 1) ts s

/-- `fnmatch.fnmatch(name, pat)` (POSIX: `normcase` is the identity). -/
def fnmatch (name pat : String) : Bool :=
  globMatch (compileGlob (pat.toList.length + 1) pat.toList) name.toList

/-! ### Association-list helpers (Python dict operations) -/

/-- Python `d[k] = v`: replace the value if the key is present, else append. -/
def updateAssoc {α : Type} (d : List (String × α)) (k : String) (v : α) :
    List (String × α) :=
  if (d.lookup k).isSome then d.map fun p => if p.1 = k then (p.1, v) else p
  else d ++ [(k, v)]

/-- Python truthiness of a field value (`if value`). -/
def FieldVal.truthy : FieldVal → Bool
  | .str s => !s.isEmpty
  | .coll l => !l.isEmpty

/-! ### `UniversalDescriber.filtered_out` and `is_filtering_value_found` -/

/-- `VPC_KINDS`: kinds whose records are never auto-created. -/
def VPC_KINDS : List String := ["vpc", "igw", "subnet", "eni", "dopt", "eipalloc", "sg", "rtb"]

/-- `UniversalDescriber.is_filtering_value_found`: `fnmatch.fnmatch(value, filter_value)`;
any non-string argument makes `fnmatch` raise `TypeError`. -/
def base_is_filtering_value_found : FilterVal → FieldVal → Except PyErr Bool
  | .str pat, .str v => .ok (fnmatch v pat)
  | _, _ => .error .typeError

/-- Resolve the candidate values for one filter against a record, following
the body of `filtered_out`:
* compound `[collection, elem]` path: `value_set = item.get(collection, [])`,
  `values = [value[elem] for value in value_set]` (a missing `elem` key raises
  `KeyError`; a non-empty string field raises `TypeError` when its characters
  are indexed by a string key);
* simple path: `values = [value] if value else []`. -/
def resolveValues (item : ProjectedRecord) : FilterTarget → Except PyErr (List FieldVal)
  | .compound c e =>
    match item.lookup c with
    | none => .ok []
    | some (.coll l) =>
      l.mapM fun d =>
        match d.lookup e with
        | some s => .ok (FieldVal.str s)
        | none => .error (.keyError e)
    | some (.str s) => if s.isEmpty then .ok [] else .error .typeError
  | .simple p =>
    match item.lookup p with
    | some v => .ok (if v.truthy then [v] else [])
    | none => .ok []

/-- Inner loop `for value in values` of the match search. -/
def anyValueFound (isFound : FilterVal → FieldVal → Except PyErr Bool)
    (fv : FilterVal) : List FieldVal → Except PyErr Bool
  | [] => .ok false
  | v :: vs => do
    let b ← isFound fv v
    if b then pure true else anyValueFound isFound fv vs

/-- Outer loop `for filter_value in filter_values` of the match search. -/
def anyFilterValueFound (isFound : FilterVal → FieldVal → Except PyErr Bool) :
    List FilterVal → List FieldVal → Except PyErr Bool
  | [], _ => .ok false
  | fv :: fvs, values => do
    let b ← anyValueFound isFound fv values
    if b then pure true else anyFilterValueFound isFound fvs values

/-- The `for filter in filters` loop of `UniversalDescriber.filtered_out`.
The record argument is optional because `NonOpenstackItemsDescriber` passes a
possibly-`None` formatted item (accessing `.get` on `None` raises
`AttributeError`). -/
def filtered_out_loop (fm : List (String × FilterTarget))
    (isFound : FilterVal → FieldVal → Except PyErr Bool)
    (item : Option ProjectedRecord) : List Filter → Except PyErr Bool
  | [] => .ok true
  | f :: rest =>
    match fm.lookup f.name with
    | none => .error (.invalidFilter f.name)
    | some target =>
      match item with
      | none => .error .attributeError
      | some it =>
        match resolveValues it target with
        | .error e => .error e
        | .ok values =>
          if values.isEmpty then .ok true
          else
            match anyFilterValueFound isFound f.value values with
            | .error e => .error e
            | .ok true => .ok false
            | .ok false => filtered_out_loop fm isFound item rest

/-- `UniversalDescriber.filtered_out(item, filters)` with the filter map and the
(overridable) single-value matcher made explicit. -/
def filtered_out (fm : List (String × FilterTarget))
    (isFound : FilterVal → FieldVal → Except PyErr Bool)
    (item : Option ProjectedRecord) (filters : Option (List Filter)) :
    Except PyErr Bool :=
  match filters with
  | none => .ok false
  | some fs => filtered_out_loop fm isFound item fs

/-! ### The Reconciler: `UniversalDescriber.describe` -/

/-- The overridable surface of `UniversalDescriber`, mirroring subclassing:
`KIND` and `FILTER_MAP` class attributes, the `format` projection hook, the
`post_format` hook (stateful across one instance, hence the `σ` threading; it
receives the current `self.ids` because `TaggableItemsDescriber.get_tags`
reads it), the overridable single-value matcher, and the id generator used by
`ec2utils.auto_create_db_item` (a collaborator outside `common.py`). -/
structure Hooks (σ : Type) where
  KIND : String
  FILTER_MAP : List (String × FilterTarget)
  format : Option LocalRecord → Option OsItem → Option ProjectedRecord
  post_format : σ → List String → Option ProjectedRecord → Option LocalRecord →
    Except PyErr (σ × Option ProjectedRecord)
  is_filtering_value_found : FilterVal → FieldVal → Except PyErr Bool
  freshId : String → String

/-- The mutable state of one `describe` pass: the remaining `self.ids` /
`self.names` sets, the accumulated result list, `paired_items_ids`, the side
effects executed so far (`createLog` for `auto_create_db_item`, `deleteLog`
for `db_api.delete_item`, each in execution order), and the hook state. -/
structure PassState (σ : Type) where
  ids : List String
  names : List String
  formatted : List ProjectedRecord
  paired : List String
  createLog : List LocalRecord
  deleteLog : List String
  hs : σ

/-- `self.items_dict = dict((i['os_id'], i) for i in (self.items or []))`,
observed through lookup: the last record with a given `os_id` wins. -/
def items_dict (items : List LocalRecord) (os_id : String) : Option LocalRecord :=
  items.foldl (fun acc i => if i.os_id = os_id then some i else acc) none

/-- `UniversalDescriber.auto_update_db(item, os_item)`: when no paired record
exists and the kind is auto-creatable, create one keyed by the external id.
Returns the (possibly new) record and the created record, if any. -/
def auto_update_db (KIND : String) (freshId : String → String)
    (item : Option LocalRecord) (os_item_id : String) :
    Option LocalRecord × Option LocalRecord :=
  match item with
  | some i => (some i, none)
  | none =>
    if KIND ∈ VPC_KINDS then (none, none)
    else
      let created : LocalRecord := { id := freshId os_item_id, os_id := os_item_id }
      (some created, some created)

/-- The selective-describe skip rule (`# NOTE(Alex): Filter out items not
requested in names or ids`): skip when the call is selective and neither the
item's name is among the remaining names nor the paired record's id among the
remaining ids. -/
def selective_skip (selective : Bool) (names ids : List String)
    (os_item_name : String) (item0 : Option LocalRecord) : Bool :=
  selective && !(decide (os_item_name ∈ names) ||
    (match item0 with | some i => decide (i.id ∈ ids) | none => false))

/-- Record the pairing bookkeeping of one loop iteration: log the auto-created
record (if any) and add the paired record's id to `paired_items_ids`. -/
def record_pairing (st : PassState σ) (item created : Option LocalRecord) :
    PassState σ :=
  let st :=
    match created with
    | some c => { st with createLog := st.createLog ++ [c] }
    | none => st
  match item with
  | some i =>
    { st with paired := if i.id ∈ st.paired then st.paired else st.paired ++ [i.id] }
  | none => st

/-- `if os_item_name in self.names: self.names.remove(...)` and
`if item and item['id'] in self.ids: self.ids.remove(...)`. -/
def remove_resolved (st : PassState σ) (os_item_name : String)
    (item : Option LocalRecord) : PassState σ :=
  let st :=
    if os_item_name ∈ st.names then { st with names := st.names.erase os_item_name }
    else st
  match item with
  | some i => if i.id ∈ st.ids then { st with ids := st.ids.erase i.id } else st
  | none => st

/-- `if (formatted_item and not self.filtered_out(formatted_item, filter)):
formatted_items.append(formatted_item)` — append the projected record unless
it is falsy or filtered out; a filtering exception aborts. -/
def append_if_retained (h : Hooks σ) (filters : Option (List Filter))
    (st : PassState σ) (fi : Option ProjectedRecord) : PassState σ × Option PyErr :=
  match fi with
  | none => (st, none)
  | some r =>
    if r.isEmpty then (st, none)
    else
      match filtered_out h.FILTER_MAP h.is_filtering_value_found (some r) filters with
      | .error e => (st, some e)
      | .ok true => (st, none)
      | .ok false => ({ st with formatted := st.formatted ++ [r] }, none)

/-- The body of one iteration of the `for os_item in self.os_items` pairing
loop of `UniversalDescriber.describe`, in source order: selective skip,
`auto_update_db`, pairing mark, `format`, `post_format`, removal of the
resolved name/id, filter-and-append. A `some` error means the corresponding
Python exception is raised here (aborting the pass with the state accumulated
so far); a `none` outcome means the loop continues with the new state. -/
def describeStep (h : Hooks σ) (dict : String → Option LocalRecord)
    (selective : Bool) (filters : Option (List Filter)) (os_item : OsItem)
    (st : PassState σ) : PassState σ × Option PyErr :=
  let item0 := dict os_item.id
  if selective_skip selective st.names st.ids os_item.name item0 then (st, none)
  else
    -- NOTE(Alex): Autoupdate DB for autoupdatable items
    let (item, created) := auto_update_db h.KIND h.freshId item0 os_item.id
    let st1 := record_pairing st item created
    match h.post_format st1.hs st1.ids (h.format item (some os_item)) item with
    | .error e => (st1, some e)
    | .ok (hs', fi) =>
      append_if_retained h filters (remove_resolved { st1 with hs := hs' } os_item.name item) fi

/-- The `for os_item in self.os_items` pairing loop: run `describeStep` per
external item in order, stopping at the first raised exception. -/
def describeLoop (h : Hooks σ) (dict : String → Option LocalRecord)
    (selective : Bool) (filters : Option (List Filter)) :
    List OsItem → PassState σ → PassState σ × Option PyErr
  | [], st => (st, none)
  | os_item :: rest, st =>
    match describeStep h dict selective filters os_item st with
    | (st', none) => describeLoop h dict selective filters rest st'
    | (st', some e) => (st', some e)

/-- The obsolete-record cleanup: `for item in self.items: if item['id'] not in
paired_items_ids: self.delete_obsolete_item(item)`. -/
def delete_obsolete_items (items : List LocalRecord) (st : PassState σ) : PassState σ :=
  items.foldl
    (fun acc it =>
      if it.id ∈ acc.paired then acc
      else { acc with deleteLog := acc.deleteLog ++ [it.id] })
    st

/-- The initial pass state: `self.ids = set(ids or [])`, `self.names = set(names or [])`
(sets modelled as duplicate-free lists). -/
def initState (hs : σ) (ids names : Option (List String)) : PassState σ :=
  { ids := (ids.getD []).dedup, names := (names.getD []).dedup,
    formatted := [], paired := [], createLog := [], deleteLog := [], hs := hs }

/-- `UniversalDescriber.describe(context, ids, names, filter)`. The local
records fetched at pass start (`self.items = self.get_db_items()`) and the
external items (`self.os_items = self.get_os_items()`) enter as parameters,
since both fetches are delegated to collaborators outside `common.py`.
Returns the final pass state (whose `formatted` field is the returned list
when no error is present) together with the outcome. -/
def describe (h : Hooks σ) (hs : σ) (items : List LocalRecord)
    (os_items : List OsItem) (ids names : Option (List String))
    (filters : Option (List Filter)) : PassState σ × Option DescribeErr :=
  let selective := ids.isSome || names.isSome
  match describeLoop h (items_dict items) selective filters os_items (initState hs ids names) with
  | (st, some e) => (st, some (.py e))
  | (st, none) =>
    -- NOTE(Alex): delete obsolete items
    let st := delete_obsolete_items items st
    -- NOTE(Alex): some requested items are not found
    if st.ids ≠ [] ∨ st.names ≠ [] then
      (st, some (.notFound h.KIND ((st.ids ++ st.names).headD "")))
    else (st, none)

/-! ### `TaggableItemsDescriber` -/

/-- The instance state of a `TaggableItemsDescriber` that survives between
`describe` calls: the `self.tags` cache (a dict grouping tag rows by owner id,
or `None` before the first `post_format` builds it). `fetchCount` counts the
`db_api.get_tags` bulk loads actually performed — pure instrumentation, the
code's behaviour never depends on it. -/
structure TagHookState where
  tags : Option (List (String × List TagRecord))
  fetchCount : Nat
deriving DecidableEq, Repr

/-- Modelled from the spec: `db_api.get_tags(context, (KIND,), self.ids)` lives
outside `common.py`; per §6 (`fetchTags(scope, kinds, ids)`) and §4.3 it
"bulk-loads all Tag Records for the current id scope" — an empty scope means
all tags of the kind. `tagStore` stands for the store's tag rows of this kind. -/
def get_tags (tagStore : List TagRecord) (ids : List String) : List TagRecord :=
  if ids.isEmpty then tagStore else tagStore.filter fun t => t.item_id ∈ ids

/-- `collections.defaultdict(list)` grouping of tag rows by `tag['item_id']`. -/
def groupTags (ts : List TagRecord) : List (String × List TagRecord) :=
  ts.foldl
    (fun d t =>
      match d.lookup t.item_id with
      | some grp => updateAssoc d t.item_id (grp ++ [t])
      | none => d ++ [(t.item_id, [t])])
    []

/-- `defaultdict` read: a missing owner id yields the empty group. -/
def lookupGroup (d : List (String × List TagRecord)) (k : String) : List TagRecord :=
  (d.lookup k).getD []

/-- `TaggableItemsDescriber.post_format(formatted_item, item)`: skip records
with no backing local record; lazily build the tag cache on first use; attach
a non-empty `tagSet` (assigning into a `None` formatted item raises
`TypeError`). -/
def tag_post_format (tagStore : List TagRecord) (s : TagHookState) (ids : List String)
    (formatted_item : Option ProjectedRecord) (item : Option LocalRecord) :
    Except PyErr (TagHookState × Option ProjectedRecord) :=
  match item with
  | none => .ok (s, formatted_item)
  | some it =>
    let (cache, s') :=
      match s.tags with
      | some c => (c, s)
      | none =>
        let c := groupTags (get_tags tagStore ids)
        (c, { tags := some c, fetchCount := s.fetchCount + 1 })
    let formatted_tags : List SubDict :=
      (lookupGroup cache it.id).map fun t => [("key", t.key), ("value", t.value)]
    if formatted_tags.isEmpty then .ok (s', formatted_item)
    else
      match formatted_item with
      | some r => .ok (s', some (updateAssoc r "tagSet" (.coll formatted_tags)))
      | none => .error .typeError

/-- Inner loop of the tag-predicate matcher: try each pattern of the
predicate's value list against one tag pair's `value` entry via the base
(`fnmatch`) matcher. -/
def tag_values_found (fvals : List FilterVal) (vo : Option String) : Except PyErr Bool :=
  match fvals with
  | [] => .ok false
  | fv :: rest => do
    let b ←
      match fv, vo with
      | .str pat, some v => pure (fnmatch v pat)
      | .str _, none => Except.error PyErr.typeError
      | .dict _ _, _ => Except.error PyErr.typeError
    if b then pure true else tag_values_found rest vo

/-- The `for tag_pair in value` loop of the overridden matcher: skip entries
whose `key` differs from the predicate's, otherwise search the predicate's
value patterns. -/
def tag_pairs_found (k : String) (fvals : List FilterVal) :
    List SubDict → Except PyErr Bool
  | [] => .ok false
  | p :: ps =>
    if p.lookup "key" ≠ some k then tag_pairs_found k fvals ps
    else do
      let b ← tag_values_found fvals (p.lookup "value")
      if b then pure true else tag_pairs_found k fvals ps

/-- `TaggableItemsDescriber.is_filtering_value_found`: a dict-shaped filter
value is matched structurally against a collection of tag pairs (iterating a
string yields characters, which are not dicts, so every entry is skipped);
plain values defer to the base `fnmatch` matcher. -/
def tag_is_filtering_value_found : FilterVal → FieldVal → Except PyErr Bool
  | .dict k fvals, .coll pairs => tag_pairs_found k fvals pairs
  | .dict _ _, .str _ => .ok false
  | .str pat, v => base_is_filtering_value_found (.str pat) v

/-- The `tag:<key>` filter rewrite performed by
`TaggableItemsDescriber.describe` before delegating: the name becomes `tag`
and the value the structured predicate `{'key': key, 'value': values}`.
(`f['name'].split(':')[1]`; `startsWith "tag:"` guarantees the index exists.) -/
def rewriteTagFilter (f : Filter) : Filter :=
  if f.name.startsWith "tag:" then
    { name := "tag", value := [.dict (((f.name.splitOn ":").drop 1).headD "") f.value] }
  else f

/-- The three `FILTER_MAP` entries installed by
`TaggableItemsDescriber.__init__`. -/
def tagFilterMap (fm : List (String × FilterTarget)) : List (String × FilterTarget) :=
  updateAssoc (updateAssoc (updateAssoc fm
    "tag-key" (.compound "tagSet" "key"))
    "tag-value" (.compound "tagSet" "value"))
    "tag" (.simple "tagSet")

/-- Assemble the hooks of a `TaggableItemsDescriber` from its subclass-specific
pieces (`KIND`, the kind's own filter map, `format`, the id generator) plus the
tag store backing `get_tags`. -/
def tagHooks (KIND : String) (fm : List (String × FilterTarget))
    (format : Option LocalRecord → Option OsItem → Option ProjectedRecord)
    (freshId : String → String) (tagStore : List TagRecord) : Hooks TagHookState :=
  { KIND := KIND, FILTER_MAP := tagFilterMap fm, format := format,
    post_format := tag_post_format tagStore,
    is_filtering_value_found := tag_is_filtering_value_found,
    freshId := freshId }

/-- `TaggableItemsDescriber.describe`: rewrite `tag:` filters, then run the
inherited reconciliation pass. The `TagHookState` is the instance state: a
second call on the same instance starts from the state the first call left. -/
def tagDescribe (KIND : String) (fm : List (String × FilterTarget))
    (format : Option LocalRecord → Option OsItem → Option ProjectedRecord)
    (freshId : String → String) (tagStore : List TagRecord) (s : TagHookState)
    (items : List LocalRecord) (os_items : List OsItem)
    (ids names : Option (List String)) (filters : Option (List Filter)) :
    PassState TagHookState × Option DescribeErr :=
  describe (tagHooks KIND fm format freshId tagStore) s items os_items ids names
    (filters.map (List.map rewriteTagFilter))

/-! ### `NonOpenstackItemsDescriber` -/

/-- The `for item in self.items` loop of `NonOpenstackItemsDescriber.describe`:
project, post-process, append unless filtered out — with no truthiness check on
the formatted item, so `None` projections are kept. -/
def nonOsLoop (h : Hooks σ) (ids : List String) (filters : Option (List Filter)) :
    List LocalRecord → σ → List (Option ProjectedRecord) →
    (σ × List (Option ProjectedRecord)) × Option PyErr
  | [], s, acc => ((s, acc), none)
  | item :: rest, s, acc =>
    let formatted_item := h.format (some item) none
    match h.post_format s ids formatted_item (some item) with
    | .error e => ((s, acc), some e)
    | .ok (s, formatted_item) =>
      match filtered_out h.FILTER_MAP h.is_filtering_value_found formatted_item filters with
      | .error e => ((s, acc), some e)
      | .ok true => nonOsLoop h ids filters rest s acc
      | .ok false => nonOsLoop h ids filters rest s (acc ++ [formatted_item])

/-- `NonOpenstackItemsDescriber.describe(context, ids, names, filter)`: fetches
by id scope only (the fetched records enter as `items`), performs no pairing,
create or delete, ignores `names`, and applies projection, post-processing and
filtering to each local record. -/
def nonOsDescribe (h : Hooks σ) (hs : σ) (items : List LocalRecord)
    (ids names : Option (List String)) (filters : Option (List Filter)) :
    (σ × List (Option ProjectedRecord)) × Option PyErr :=
  nonOsLoop h (ids.getD []) filters items hs []

/-! ### Spec-side reference definitions (for refinement-style claims) -/

/-- Conditional removal of a name from the remaining-names set (spec §4.1 h). -/
def erase_name (nameset : List String) (n : String) : List String :=
  if n ∈ nameset then nameset.erase n else nameset

/-- Conditional removal of the paired record's id from the remaining-ids set
(spec §4.1 h). -/
def erase_id (idset : List String) (item : Option LocalRecord) : List String :=
  match item with
  | some i => if i.id ∈ idset then idset.erase i.id else idset
  | none => idset

/-- A filter that the match loop passes through without a verdict: its name is
mapped, it resolves to a non-empty candidate set, and no value matches. -/
def passes_filter_through (fm : List (String × FilterTarget))
    (isFound : FilterVal → FieldVal → Except PyErr Bool)
    (r : ProjectedRecord) (f : Filter) : Prop :=
  ∃ t vs, fm.lookup f.name = some t ∧ resolveValues r t = .ok vs ∧ vs ≠ [] ∧
    anyFilterValueFound isFound f.value vs = .ok false

/-- Reference following the spec's words (§8): with `filters = null` the result
is "the projection of all external items in provider fetch order, after the
selective skip rule (if any) and suppression of null projections" — no filter
evaluation, no pairing bookkeeping, no create/delete accounting. The remaining
id/name sets still evolve, because the selective skip rule consults them.
(The error branch is unreachable under a total post-projection hook.) -/
def spec_projected_no_filters (h : Hooks σ) (dict : String → Option LocalRecord)
    (selective : Bool) :
    List OsItem → σ → List String → List String → List ProjectedRecord
  | [], _, _, _ => []
  | os_item :: rest, s, idset, nameset =>
    let item0 := dict os_item.id
    if selective_skip selective nameset idset os_item.name item0 then
      spec_projected_no_filters h dict selective rest s idset nameset
    else
      let (item, _) := auto_update_db h.KIND h.freshId item0 os_item.id
      match h.post_format s idset (h.format item (some os_item)) item with
      | .error _ => []
      | .ok (s', fi) =>
        match fi with
        | none =>
          spec_projected_no_filters h dict selective rest s' (erase_id idset item)
            (erase_name nameset os_item.name)
        | some r =>
          if r.isEmpty then
            spec_projected_no_filters h dict selective rest s' (erase_id idset item)
              (erase_name nameset os_item.name)
          else
            r :: spec_projected_no_filters h dict selective rest s' (erase_id idset item)
              (erase_name nameset os_item.name)

/-- Reference for the Local-Only Variant: the projections of all fetched local
records in fetch order, each run through the post-projection hook, with no
suppression of null/falsy projections. (The error branch is unreachable under
a total post-projection hook.) -/
def nonOsProjections (h : Hooks σ) (ids : List String) :
    List LocalRecord → σ → σ × List (Option ProjectedRecord)
  | [], s => (s, [])
  | item :: rest, s =>
    match h.post_format s ids (h.format (some item) none) (some item) with
    | .error _ => (s, [])
    | .ok (s', fi) =>
      let (s'', out) := nonOsProjections h ids rest s'
      (s'', fi :: out)

/-- A post-projection hook that never raises (the hypothesis under which the
loop cannot abort mid-pass from `post_format`). -/
def TotalPost (h : Hooks σ) : Prop :=
  ∀ s ids fi it, ∃ r, h.post_format s ids fi it = .ok r

/-! ### Concrete instances used by witnesses and counterexamples -/

/-- A plain describer instance used by concrete runs: kind `vol`, a one-entry
filter map, a projection echoing the paired ids, no-op post-processing. -/
def volHooks : Hooks Unit :=
  { KIND := "vol"
    FILTER_MAP := [("status", .simple "status")]
    format := fun item os =>
      some [("id", .str ((item.map (·.id)).getD "")),
            ("osId", .str ((os.map (·.id)).getD ""))]
    post_format := fun s _ fi _ => .ok (s, fi)
    is_filtering_value_found := base_is_filtering_value_found
    freshId := fun osid => "new-" ++ osid }

/-- A describer for a protected kind (`vpc` is in `VPC_KINDS`), with an id
generator returning a constant fresh id (so freshness is checkable). -/
def vpcHooks : Hooks Unit :=
  { KIND := "vpc"
    FILTER_MAP := [("state", .simple "state")]
    format := fun item os =>
      some [("id", .str ((item.map (·.id)).getD "")),
            ("osId", .str ((os.map (·.id)).getD ""))]
    post_format := fun s _ fi _ => .ok (s, fi)
    is_filtering_value_found := base_is_filtering_value_found
    freshId := fun _ => "C" }

/-- A local-only describer whose projection hook returns `None`. -/
def nullFormatHooks : Hooks Unit :=
  { KIND := "fp"
    FILTER_MAP := []
    format := fun _ _ => none
    post_format := fun s _ fi _ => .ok (s, fi)
    is_filtering_value_found := base_is_filtering_value_found
    freshId := fun osid => "fp-" ++ osid }

/-- Tag rows in the store for the concrete taggable-describer runs. -/
def tagStore1 : List TagRecord := [⟨"L1", "Name", "web-1"⟩]

/-- Projection hook for the concrete taggable-describer runs. -/
def tagFormat : Option LocalRecord → Option OsItem → Option ProjectedRecord :=
  fun item _ => some [("id", .str ((item.map (·.id)).getD ""))]

/-- First describe call on a fresh taggable-describer instance
(`tags = None`, no fetch performed yet). -/
def tagRun1 : PassState TagHookState × Option DescribeErr :=
  tagDescribe "vol" [("status", .simple "status")] tagFormat (fun osid => "new-" ++ osid)
    tagStore1 ⟨none, 0⟩ [⟨"L1", "E1"⟩] [⟨"E1", "n1"⟩] none none none

/-- Second describe call on the same instance, starting from the instance
state the first call left behind. -/
def tagRun2 : PassState TagHookState × Option DescribeErr :=
  tagDescribe "vol" [("status", .simple "status")] tagFormat (fun osid => "new-" ++ osid)
    tagStore1 tagRun1.1.hs [⟨"L1", "E1"⟩] [⟨"E1", "n1"⟩] none none none

/-! ### Sanity checks: concrete runs (spec §8 scenarios and §4.2 examples) -/

example : filtered_out [("a", .simple "a")] base_is_filtering_value_found
    (some [("a", .str "x")]) none = .ok false := rfl

example : filtered_out [("a", .simple "a")] base_is_filtering_value_found
    (some [("a", .str "x")]) (some [⟨"a", [.str "x"]⟩]) = .ok false := rfl

example : filtered_out [("a", .simple "a")] base_is_filtering_value_found
    (some [("a", .str "x")]) (some [⟨"bad", []⟩]) = .error (.invalidFilter "bad") := rfl

example : fnmatch "web-1" "web-*" = true := by decide

example : fnmatch "db-1" "web-*" = false := by decide

example : fnmatch "ab" "a?" = true := by decide

example : fnmatch "ad" "a[b-c]" = false := by decide

example : fnmatch "ac" "a[b-c]" = true := by decide

example : fnmatch "ab" "a[!b-c]" = false := by decide

example :
    (describe volHooks () [⟨"L1", "E1"⟩, ⟨"L3", "E3"⟩] [⟨"E1", "n1"⟩, ⟨"E2", "n2"⟩]
      none none none).1.deleteLog = ["L3"] := rfl

example :
    (describe volHooks () [⟨"L1", "E1"⟩, ⟨"L3", "E3"⟩] [⟨"E1", "n1"⟩, ⟨"E2", "n2"⟩]
      none none none).1.createLog = [⟨"new-E2", "E2"⟩] := rfl

example :
    (describe volHooks () [⟨"L1", "E1"⟩, ⟨"L3", "E3"⟩] [⟨"E1", "n1"⟩, ⟨"E2", "n2"⟩]
      none none none).2 = none := rfl

example :
    (describe volHooks () [⟨"L1", "E1"⟩, ⟨"L3", "E3"⟩] [⟨"E1", "n1"⟩, ⟨"E2", "n2"⟩]
      none none none).1.formatted =
      [[("id", .str "L1"), ("osId", .str "E1")],
       [("id", .str "new-E2"), ("osId", .str "E2")]] := rfl

example :
    (describe volHooks () [] [] (some ["L9"]) none none).2 =
      some (.notFound "vol" "L9") := rfl

example :
    (describe volHooks () [⟨"L1", "E1"⟩] [⟨"E1", "n1"⟩] (some ["L9"]) none none).1.deleteLog
      = ["L1"] := rfl

/-! ### Helper lemmas -/

/-- Case analysis of `auto_update_db`: either the looked-up record is returned
unchanged with no create, or there was no record, the kind is auto-creatable,
and the returned and created record is the fresh one. -/
lemma auto_update_db_cases {K : String} {f : String → String}
    {item0 item created : Option LocalRecord} {osid : String}
    (h : auto_update_db K f item0 osid = (item, created)) :
    (item = item0 ∧ created = none) ∨
      (item0 = none ∧ K ∉ VPC_KINDS ∧
        item = some ⟨f osid, osid⟩ ∧ created = some ⟨f osid, osid⟩) := by
  cases item0 with
  | some i =>
    left
    simpa [auto_update_db] using h.symm
  | none =>
    by_cases hk : K ∈ VPC_KINDS
    · left
      simp [auto_update_db, hk] at h
      exact ⟨h.1.symm, h.2.symm⟩
    · right
      simp [auto_update_db, hk] at h
      exact ⟨rfl, hk, h.1.symm, h.2.symm⟩

/-- `record_pairing` leaves everything but `paired` and `createLog` unchanged. -/
lemma record_pairing_fields (st : PassState σ) (item created : Option LocalRecord) :
    (record_pairing st item created).ids = st.ids ∧
      (record_pairing st item created).names = st.names ∧
      (record_pairing st item created).formatted = st.formatted ∧
      (record_pairing st item created).deleteLog = st.deleteLog ∧
      (record_pairing st item created).hs = st.hs := by
  cases item <;> cases created <;> simp [record_pairing]

/-- `record_pairing` extends `createLog` by exactly the created record. -/
lemma record_pairing_createLog (st : PassState σ) (item created : Option LocalRecord) :
    (record_pairing st item created).createLog =
      st.createLog ++ (created.map fun c => [c]).getD [] := by
  cases item <;> cases created <;> simp [record_pairing]

/-- Membership in `paired` after `record_pairing`: either it was already
paired, or it is the id of the record paired with the current item. -/
lemma record_pairing_paired_mem (st : PassState σ) (item created : Option LocalRecord)
    (x : String) (hx : x ∈ (record_pairing st item created).paired) :
    x ∈ st.paired ∨ ∃ i, item = some i ∧ x = i.id := by
  cases item with
  | none => cases created <;> simp_all [record_pairing]
  | some i =>
    cases created <;> simp only [record_pairing] at hx <;>
      by_cases hp : i.id ∈ st.paired <;> simp_all <;> tauto

/-- `remove_resolved` leaves everything but `ids` and `names` unchanged. -/
lemma remove_resolved_fields (st : PassState σ) (n : String) (item : Option LocalRecord) :
    (remove_resolved st n item).formatted = st.formatted ∧
      (remove_resolved st n item).paired = st.paired ∧
      (remove_resolved st n item).createLog = st.createLog ∧
      (remove_resolved st n item).deleteLog = st.deleteLog ∧
      (remove_resolved st n item).hs = st.hs := by
  unfold remove_resolved
  by_cases hn : n ∈ st.names <;> cases item <;> simp only [hn, if_true, if_false]
  all_goals first
    | (split <;> simp)
    | simp

/-- `append_if_retained` leaves everything but `formatted` unchanged, and only
ever appends to `formatted`. -/
lemma append_if_retained_fields (h : Hooks σ) (filters : Option (List Filter))
    (st : PassState σ) (fi : Option ProjectedRecord) :
    (append_if_retained h filters st fi).1.ids = st.ids ∧
      (append_if_retained h filters st fi).1.names = st.names ∧
      (append_if_retained h filters st fi).1.paired = st.paired ∧
      (append_if_retained h filters st fi).1.createLog = st.createLog ∧
      (append_if_retained h filters st fi).1.deleteLog = st.deleteLog ∧
      (append_if_retained h filters st fi).1.hs = st.hs ∧
      ∃ t, (append_if_retained h filters st fi).1.formatted = st.formatted ++ t := by
  unfold append_if_retained
  cases fi with
  | none => exact ⟨rfl, rfl, rfl, rfl, rfl, rfl, [], by simp⟩
  | some r =>
    by_cases hr : r.isEmpty
    · simp only [if_pos hr]
      refine ⟨?_, ?_, ?_, ?_, ?_, ?_, [], ?_⟩ <;> simp
    · simp only [if_neg hr]
      rcases hfo : filtered_out h.FILTER_MAP h.is_filtering_value_found (some r) filters with e | b
      · refine ⟨?_, ?_, ?_, ?_, ?_, ?_, [], ?_⟩ <;> simp
      · cases b
        · refine ⟨?_, ?_, ?_, ?_, ?_, ?_, [r], ?_⟩ <;> simp
        · refine ⟨?_, ?_, ?_, ?_, ?_, ?_, [], ?_⟩ <;> simp

/-- One pairing step never deletes a record. -/
lemma describeStep_deleteLog (h : Hooks σ) (dict : String → Option LocalRecord)
    (selective : Bool) (filters : Option (List Filter)) (o : OsItem) (st : PassState σ) :
    (describeStep h dict selective filters o st).1.deleteLog = st.deleteLog := by
  unfold describeStep
  by_cases hsk : selective_skip selective st.names st.ids o.name (dict o.id)
  · simp only [hsk, if_true]
  · simp only [hsk, Bool.false_eq_true, if_false]
    rcases haud : auto_update_db h.KIND h.freshId (dict o.id) o.id with ⟨item, created⟩
    simp only [haud]
    rcases hpf : h.post_format (record_pairing st item created).hs
        (record_pairing st item created).ids (h.format item (some o)) item with e | ⟨hs', fi⟩
    · simp only [hpf]
      exact (record_pairing_fields st item created).2.2.2.1
    · simp only [hpf]
      rw [(append_if_retained_fields h filters _ fi).2.2.2.2.1,
        (remove_resolved_fields _ o.name item).2.2.2.1]
      exact (record_pairing_fields st item created).2.2.2.1

/-- Under a protected (non-auto-creatable) kind, one pairing step performs no
create. -/
lemma describeStep_createLog_protected (h : Hooks σ) (dict : String → Option LocalRecord)
    (selective : Bool) (filters : Option (List Filter)) (o : OsItem) (st : PassState σ)
    (hk : h.KIND ∈ VPC_KINDS) :
    (describeStep h dict selective filters o st).1.createLog = st.createLog := by
  unfold describeStep
  by_cases hsk : selective_skip selective st.names st.ids o.name (dict o.id)
  · simp only [hsk, if_true]
  · simp only [hsk, Bool.false_eq_true, if_false]
    rcases haud : auto_update_db h.KIND h.freshId (dict o.id) o.id with ⟨item, created⟩
    have hcreated : created = none := by
      rcases auto_update_db_cases haud with ⟨_, hc⟩ | ⟨_, hk', _, _⟩
      · exact hc
      · exact absurd hk hk'
    subst hcreated
    simp only [haud]
    rcases hpf : h.post_format (record_pairing st item none).hs
        (record_pairing st item none).ids (h.format item (some o)) item with e | ⟨hs', fi⟩
    · simp only [hpf]
      rw [record_pairing_createLog st item none]
      simp
    · simp only [hpf]
      rw [(append_if_retained_fields h filters _ fi).2.2.2.1,
        (remove_resolved_fields _ o.name item).2.2.1]
      rw [record_pairing_createLog st item none]
      simp

/-- Whatever one pairing step adds to `paired_items_ids` is either the id of
the record the external-identity index holds for the processed item's external
id, or the id of the record freshly created for it. -/
lemma describeStep_paired_source (h : Hooks σ) (dict : String → Option LocalRecord)
    (selective : Bool) (filters : Option (List Filter)) (o : OsItem) (st : PassState σ)
    (x : String) (hx : x ∈ (describeStep h dict selective filters o st).1.paired) :
    x ∈ st.paired ∨ (∃ i, dict o.id = some i ∧ x = i.id) ∨
      (dict o.id = none ∧ x = h.freshId o.id) := by
  unfold describeStep at hx
  by_cases hsk : selective_skip selective st.names st.ids o.name (dict o.id)
  · simp only [hsk, if_true] at hx
    exact Or.inl hx
  · simp only [hsk, Bool.false_eq_true, if_false] at hx
    rcases haud : auto_update_db h.KIND h.freshId (dict o.id) o.id with ⟨item, created⟩
    simp only [haud] at hx
    have hmem : x ∈ (record_pairing st item created).paired := by
      rcases hpf : h.post_format (record_pairing st item created).hs
          (record_pairing st item created).ids (h.format item (some o)) item with e | ⟨hs', fi⟩
      · simpa only [hpf] using hx
      · simp only [hpf] at hx
        rwa [(append_if_retained_fields h filters _ fi).2.2.1,
          (remove_resolved_fields _ o.name item).2.1] at hx
    rcases record_pairing_paired_mem st item created x hmem with hold | ⟨i, hitem, hxi⟩
    · exact Or.inl hold
    · rcases auto_update_db_cases haud with ⟨heq, _⟩ | ⟨h0, _, hsome, _⟩
      · exact Or.inr (Or.inl ⟨i, heq ▸ hitem, hxi⟩)
      · right; right
        refine ⟨h0, ?_⟩
        rw [hitem] at hsome
        cases hsome
        simpa using hxi

/-- If the post-projection hook preserves a state predicate by returning its
input state unchanged, one pairing step leaves the hook state unchanged. -/
lemma describeStep_hs_frozen (h : Hooks σ) (dict : String → Option LocalRecord)
    (selective : Bool) (filters : Option (List Filter)) (o : OsItem) (st : PassState σ)
    (P : σ → Prop)
    (hfr : ∀ s ids fi it r, P s → h.post_format s ids fi it = .ok r → r.1 = s)
    (hP : P st.hs) :
    (describeStep h dict selective filters o st).1.hs = st.hs := by
  unfold describeStep
  by_cases hsk : selective_skip selective st.names st.ids o.name (dict o.id)
  · simp only [hsk, if_true]
  · simp only [hsk, Bool.false_eq_true, if_false]
    rcases haud : auto_update_db h.KIND h.freshId (dict o.id) o.id with ⟨item, created⟩
    simp only [haud]
    have hAhs : (record_pairing st item created).hs = st.hs :=
      (record_pairing_fields st item created).2.2.2.2
    rcases hpf : h.post_format (record_pairing st item created).hs
        (record_pairing st item created).ids (h.format item (some o)) item with e | ⟨hs', fi⟩
    · simpa only [hpf] using hAhs
    · simp only [hpf]
      have : hs' = (record_pairing st item created).hs :=
        hfr _ _ _ _ _ (hAhs ▸ hP) hpf
      rw [(append_if_retained_fields h filters _ fi).2.2.2.2.2.1,
        (remove_resolved_fields _ o.name item).2.2.2.2]
      simpa using this.trans hAhs

/-- Transfer a state invariant preserved by one pairing step to the whole
pairing loop (the state at an abort is also an intermediate state). -/
lemma describeLoop_invariant (h : Hooks σ) (dict : String → Option LocalRecord)
    (selective : Bool) (filters : Option (List Filter)) (Inv : PassState σ → Prop)
    (hstep : ∀ o st, Inv st → Inv (describeStep h dict selective filters o st).1) :
    ∀ os st, Inv st → Inv (describeLoop h dict selective filters os st).1 := by
  intro os
  induction os with
  | nil => exact fun st hst => hst
  | cons o rest ih =>
    intro st hst
    have hst' := hstep o st hst
    rcases hso : describeStep h dict selective filters o st with ⟨st', e⟩
    rw [hso] at hst'
    cases e with
    | none =>
      have : describeLoop h dict selective filters (o :: rest) st =
          describeLoop h dict selective filters rest st' := by
        simp only [describeLoop, hso]
      rw [this]
      exact ih st' hst'
    | some e' =>
      have : describeLoop h dict selective filters (o :: rest) st = (st', some e') := by
        simp only [describeLoop, hso]
      rw [this]
      exact hst'

/-- The pairing loop never deletes a record: deletions happen only in the
cleanup step after it. -/
lemma describeLoop_deleteLog (h : Hooks σ) (dict : String → Option LocalRecord)
    (selective : Bool) (filters : Option (List Filter)) (os : List OsItem)
    (st : PassState σ) :
    (describeLoop h dict selective filters os st).1.deleteLog = st.deleteLog :=
  describeLoop_invariant h dict selective filters (fun s => s.deleteLog = st.deleteLog)
    (fun o s hs => (describeStep_deleteLog h dict selective filters o s).trans hs)
    os st rfl

/-- Under a protected kind the whole pairing loop performs no create. -/
lemma describeLoop_createLog_protected (h : Hooks σ) (dict : String → Option LocalRecord)
    (selective : Bool) (filters : Option (List Filter)) (os : List OsItem)
    (st : PassState σ) (hk : h.KIND ∈ VPC_KINDS) :
    (describeLoop h dict selective filters os st).1.createLog = st.createLog :=
  describeLoop_invariant h dict selective filters (fun s => s.createLog = st.createLog)
    (fun o s hs =>
      (describeStep_createLog_protected h dict selective filters o s hk).trans hs)
    os st rfl

/-- Every id in `paired_items_ids` after the loop was already paired at loop
start, or is the id held by the external-identity index for some external id,
or is a freshly generated id for an external id absent from the index. -/
lemma describeLoop_paired_source (h : Hooks σ) (dict : String → Option LocalRecord)
    (selective : Bool) (filters : Option (List Filter)) (os : List OsItem)
    (st : PassState σ) (x : String)
    (hx : x ∈ (describeLoop h dict selective filters os st).1.paired) :
    x ∈ st.paired ∨ (∃ osid i, dict osid = some i ∧ x = i.id) ∨
      (∃ osid, dict osid = none ∧ x = h.freshId osid) := by
  refine describeLoop_invariant h dict selective filters
    (fun s => ∀ y ∈ s.paired, y ∈ st.paired ∨ (∃ osid i, dict osid = some i ∧ y = i.id) ∨
      (∃ osid, dict osid = none ∧ y = h.freshId osid))
    (fun o s hInv y hy => ?_) os st (fun y hy => Or.inl hy) x hx
  rcases describeStep_paired_source h dict selective filters o s y hy with
    hold | ⟨i, hd, hyi⟩ | ⟨hd, hyf⟩
  · exact hInv y hold
  · exact Or.inr (Or.inl ⟨o.id, i, hd, hyi⟩)
  · exact Or.inr (Or.inr ⟨o.id, hd, hyf⟩)

/-- If the post-projection hook freezes the hook state on every state
satisfying `P`, the whole pairing loop leaves the hook state intact. -/
lemma describeLoop_hs_frozen (h : Hooks σ) (dict : String → Option LocalRecord)
    (selective : Bool) (filters : Option (List Filter)) (os : List OsItem)
    (st : PassState σ) (P : σ → Prop)
    (hfr : ∀ s ids fi it r, P s → h.post_format s ids fi it = .ok r → r.1 = s)
    (hP : P st.hs) :
    (describeLoop h dict selective filters os st).1.hs = st.hs :=
  describeLoop_invariant h dict selective filters (fun s => s.hs = st.hs)
    (fun o s hs =>
      (describeStep_hs_frozen h dict selective filters o s P hfr (hs ▸ hP)).trans hs)
    os st rfl

/-- The cleanup step appends exactly the ids of the unpaired fetched records,
in fetch order, and changes nothing else. -/
lemma delete_obsolete_items_eq (items : List LocalRecord) (st : PassState σ) :
    delete_obsolete_items items st =
      { st with deleteLog := st.deleteLog ++
          (items.filter fun it => !decide (it.id ∈ st.paired)).map (·.id) } := by
  induction items generalizing st with
  | nil => simp [delete_obsolete_items]
  | cons it its ih =>
    by_cases hmem : it.id ∈ st.paired
    · have h1 : delete_obsolete_items (it :: its) st = delete_obsolete_items its st := by
        simp [delete_obsolete_items, hmem]
      rw [h1, ih]
      simp [List.filter_cons, hmem]
    · have h1 : delete_obsolete_items (it :: its) st =
          delete_obsolete_items its { st with deleteLog := st.deleteLog ++ [it.id] } := by
        simp [delete_obsolete_items, hmem]
      rw [h1, ih]
      simp [List.filter_cons, hmem]

/-- Case analysis of a whole `describe` call: either the pairing loop raised
(no cleanup, the exception escapes), or the loop completed, the cleanup ran on
the loop's final state, and the call either returned or raised Not-Found. -/
lemma describe_result_cases (h : Hooks σ) (hs : σ) (items : List LocalRecord)
    (os_items : List OsItem) (ids names : Option (List String))
    (filters : Option (List Filter)) :
    (∃ st e, describeLoop h (items_dict items) (ids.isSome || names.isSome) filters os_items
        (initState hs ids names) = (st, some e) ∧
        describe h hs items os_items ids names filters = (st, some (.py e))) ∨
    (∃ st, describeLoop h (items_dict items) (ids.isSome || names.isSome) filters os_items
        (initState hs ids names) = (st, none) ∧
        (describe h hs items os_items ids names filters).1 = delete_obsolete_items items st ∧
        ((describe h hs items os_items ids names filters).2 = none ∨
          ∃ v, (describe h hs items os_items ids names filters).2 =
            some (.notFound h.KIND v))) := by
  rcases hlp : describeLoop h (items_dict items) (ids.isSome || names.isSome) filters os_items
      (initState hs ids names) with ⟨st, e⟩
  cases e with
  | some e' =>
    refine Or.inl ⟨st, e', rfl, ?_⟩
    simp only [describe, hlp]
  | none =>
    refine Or.inr ⟨st, rfl, ?_, ?_⟩
    · simp only [describe, hlp]
      split <;> rfl
    · simp only [describe, hlp]
      split
      · exact Or.inr ⟨_, rfl⟩
      · exact Or.inl rfl

/-! ### Claim theorems -/

/-- `filtered_out` on a present filter list is the match loop. -/
lemma filtered_out_some (fm : List (String × FilterTarget))
    (isFound : FilterVal → FieldVal → Except PyErr Bool)
    (item : Option ProjectedRecord) (fs : List Filter) :
    filtered_out fm isFound item (some fs) = filtered_out_loop fm isFound item fs := rfl

/-- The match loop ignores a prefix of filters it passes through without a
verdict: each is mapped, resolves to non-empty values, and finds no match. -/
lemma filtered_out_loop_of_passes (fm : List (String × FilterTarget))
    (isFound : FilterVal → FieldVal → Except PyErr Bool) (r : ProjectedRecord)
    (pre rest : List Filter)
    (hpre : ∀ p ∈ pre, passes_filter_through fm isFound r p) :
    filtered_out_loop fm isFound (some r) (pre ++ rest) =
      filtered_out_loop fm isFound (some r) rest := by
  induction pre with
  | nil => rfl
  | cons p pre ih =>
    obtain ⟨t, vs, ht, hv, hne, hm⟩ := hpre p (by simp)
    have hvs : vs.isEmpty = false := by
      cases vs
      · exact absurd rfl hne
      · rfl
    simp only [List.cons_append, filtered_out_loop, ht, hv, hvs, hm, Bool.false_eq_true,
      if_false]
    exact ih fun q hq => hpre q (by simp [hq])

/-- The `names` set after `remove_resolved`. -/
lemma remove_resolved_names (st : PassState σ) (n : String) (item : Option LocalRecord) :
    (remove_resolved st n item).names = erase_name st.names n := by
  unfold remove_resolved erase_name
  by_cases hn : n ∈ st.names <;> cases item <;> simp only [hn, if_true, if_false]
  all_goals first
    | rfl
    | (split <;> rfl)

/-- The `ids` set after `remove_resolved`. -/
lemma remove_resolved_ids (st : PassState σ) (n : String) (item : Option LocalRecord) :
    (remove_resolved st n item).ids = erase_id st.ids item := by
  unfold remove_resolved erase_id
  by_cases hn : n ∈ st.names <;> cases item <;> simp only [hn, if_true, if_false]
  all_goals first
    | rfl
    | (split <;> rename_i hi <;> simp_all)

/-- With `filters = null` and a total post-projection hook, the pairing loop
raises nothing and its accumulated result list is the spec-side reference:
the projections of the external items, in order, after the selective skip rule
and suppression of null/falsy projections. -/
lemma describeLoop_no_filters (h : Hooks σ) (dict : String → Option LocalRecord)
    (selective : Bool) (hp : TotalPost h) :
    ∀ (os : List OsItem) (st : PassState σ),
      (describeLoop h dict selective none os st).1.formatted =
        st.formatted ++
          spec_projected_no_filters h dict selective os st.hs st.ids st.names ∧
      (describeLoop h dict selective none os st).2 = none := by
  intro os
  induction os with
  | nil =>
    intro st
    exact ⟨by simp [describeLoop, spec_projected_no_filters], rfl⟩
  | cons o rest ih =>
    intro st
    by_cases hsk : selective_skip selective st.names st.ids o.name (dict o.id)
    · have hstep : describeStep h dict selective none o st = (st, none) := by
        unfold describeStep
        simp only [hsk, if_true]
      have hloop : describeLoop h dict selective none (o :: rest) st =
          describeLoop h dict selective none rest st := by
        simp only [describeLoop, hstep]
      have hspec : spec_projected_no_filters h dict selective (o :: rest) st.hs st.ids
          st.names = spec_projected_no_filters h dict selective rest st.hs st.ids st.names := by
        simp only [spec_projected_no_filters, hsk, if_true]
      rw [hloop, hspec]
      exact ih st
    · rcases haud : auto_update_db h.KIND h.freshId (dict o.id) o.id with ⟨item, created⟩
      obtain ⟨⟨hs', fi⟩, hpf⟩ := hp (record_pairing st item created).hs
        (record_pairing st item created).ids (h.format item (some o)) item
      obtain ⟨hAids, hAnames, hAfmt, _, hAhs⟩ := record_pairing_fields st item created
      -- the hook call as the spec side writes it
      have hpf' : h.post_format st.hs st.ids (h.format item (some o)) item =
          .ok (hs', fi) := by
        rw [← hAhs, ← hAids]
        exact hpf
      -- the state the loop continues with (before the formatted append)
      have hBnames : (remove_resolved { record_pairing st item created with hs := hs' }
          o.name item).names = erase_name st.names o.name := by
        rw [remove_resolved_names]
        unfold erase_name
        simp only [hAnames]
      have hBids : (remove_resolved { record_pairing st item created with hs := hs' }
          o.name item).ids = erase_id st.ids item := by
        rw [remove_resolved_ids]
        unfold erase_id
        simp only [hAids]
      have hBhs : (remove_resolved { record_pairing st item created with hs := hs' }
          o.name item).hs = hs' := by
        rw [(remove_resolved_fields _ o.name item).2.2.2.2]
      have hBfmt : (remove_resolved { record_pairing st item created with hs := hs' }
          o.name item).formatted = st.formatted := by
        rw [(remove_resolved_fields _ o.name item).1]
        simpa using hAfmt
      have hstep : describeStep h dict selective none o st =
          append_if_retained h none
            (remove_resolved { record_pairing st item created with hs := hs' } o.name item)
            fi := by
        unfold describeStep
        simp only [hsk, Bool.false_eq_true, if_false, haud, hpf]
      set B := remove_resolved { record_pairing st item created with hs := hs' } o.name item
        with hB
      cases fi with
      | none =>
        have hcontinue : describeLoop h dict selective none (o :: rest) st =
            describeLoop h dict selective none rest B := by
          simp only [describeLoop, hstep, append_if_retained]
        have hspec : spec_projected_no_filters h dict selective (o :: rest) st.hs st.ids
            st.names = spec_projected_no_filters h dict selective rest hs'
              (erase_id st.ids item) (erase_name st.names o.name) := by
          simp only [spec_projected_no_filters, hsk, Bool.false_eq_true, if_false, haud, hpf']
        rw [hcontinue, hspec]
        obtain ⟨ihf, ihe⟩ := ih B
        refine ⟨?_, ihe⟩
        rw [ihf, hBfmt, hBhs, hBids, hBnames]
      | some r =>
        by_cases hr : r.isEmpty
        · have hcontinue : describeLoop h dict selective none (o :: rest) st =
              describeLoop h dict selective none rest B := by
            simp only [describeLoop, hstep, append_if_retained, if_pos hr]
          have hspec : spec_projected_no_filters h dict selective (o :: rest) st.hs st.ids
              st.names = spec_projected_no_filters h dict selective rest hs'
                (erase_id st.ids item) (erase_name st.names o.name) := by
            simp only [spec_projected_no_filters, hsk, Bool.false_eq_true, if_false, haud,
              hpf', if_pos hr]
          rw [hcontinue, hspec]
          obtain ⟨ihf, ihe⟩ := ih B
          refine ⟨?_, ihe⟩
          rw [ihf, hBfmt, hBhs, hBids, hBnames]
        · have hcontinue : describeLoop h dict selective none (o :: rest) st =
              describeLoop h dict selective none rest
                { B with formatted := B.formatted ++ [r] } := by
            simp only [describeLoop, hstep, append_if_retained, if_neg hr, filtered_out]
          have hspec : spec_projected_no_filters h dict selective (o :: rest) st.hs st.ids
              st.names = r :: spec_projected_no_filters h dict selective rest hs'
                (erase_id st.ids item) (erase_name st.names o.name) := by
            simp only [spec_projected_no_filters, hsk, Bool.false_eq_true, if_false, haud,
              hpf', if_neg hr]
          rw [hcontinue, hspec]
          obtain ⟨ihf, ihe⟩ := ih { B with formatted := B.formatted ++ [r] }
          refine ⟨?_, ihe⟩
          rw [ihf]
          dsimp only
          rw [hBfmt, hBhs, hBids, hBnames]
          simp only [List.append_assoc, List.singleton_append]

/-- Claim C1: with `filters = null` every projected record passes the filter
step (`filtered_out` is identically "retained"), so the accumulated result of
a describe call equals the spec-side reference: the projections of the
external items in provider fetch order, after the selective skip rule, with
null/falsy projections suppressed — and the call never aborts inside the
loop. (The post-projection hook is assumed total, as `pass` and the tag hook
are on well-formed records.) -/
theorem c1_null_filters_result_eq_projection (h : Hooks σ) (hs : σ)
    (items : List LocalRecord) (os_items : List OsItem)
    (ids names : Option (List String)) (hp : TotalPost h) :
    (describe h hs items os_items ids names none).1.formatted =
      spec_projected_no_filters h (items_dict items) (ids.isSome || names.isSome) os_items
        hs ((ids.getD []).dedup) ((names.getD []).dedup) ∧
    DescribeErr.isPyAbort (describe h hs items os_items ids names none).2 = false := by
  obtain ⟨hfmt, herr⟩ := describeLoop_no_filters h (items_dict items)
    (ids.isSome || names.isSome) hp os_items (initState hs ids names)
  rcases describe_result_cases h hs items os_items ids names none with
    ⟨st, e, hlp, heq⟩ | ⟨st, hlp, hfst, hsnd⟩
  · rw [hlp] at herr
    simp at herr
  · rw [hlp] at hfmt
    constructor
    · rw [hfst, delete_obsolete_items_eq]
      dsimp only
      simpa [initState] using hfmt
    · rcases hsnd with h1 | ⟨v, h1⟩ <;> rw [h1] <;> rfl

/-- Claim C1 witness: a concrete unfiltered describe call whose result equals
the reference projection list and which raises nothing in the loop. -/
theorem c1_witness :
    (describe volHooks () [⟨"L1", "E1"⟩] [⟨"E1", "n1"⟩, ⟨"E2", "n2"⟩]
        none none none).1.formatted =
      spec_projected_no_filters volHooks (items_dict [⟨"L1", "E1"⟩]) false
        [⟨"E1", "n1"⟩, ⟨"E2", "n2"⟩] () [] [] ∧
    DescribeErr.isPyAbort (describe volHooks () [⟨"L1", "E1"⟩]
      [⟨"E1", "n1"⟩, ⟨"E2", "n2"⟩] none none none).2 = false := by
  have hc := c1_null_filters_result_eq_projection volHooks () [⟨"L1", "E1"⟩]
    [⟨"E1", "n1"⟩, ⟨"E2", "n2"⟩] none none (fun s ids fi it => ⟨(s, fi), rfl⟩)
  exact hc

/-- Claim C2: for every describe call on the Reconciler that is not aborted
inside the pairing loop by a Python-level exception, every Local Record
fetched at pass start whose id is not marked paired during the pairing loop is
deleted at pass end — including a record whose external item was skipped by
the selective id/name rule, since skipping leaves its id unmarked. -/
theorem c2_unpaired_fetched_records_deleted (h : Hooks σ) (hs : σ)
    (items : List LocalRecord) (os_items : List OsItem)
    (ids names : Option (List String)) (filters : Option (List Filter))
    (hnp : DescribeErr.isPyAbort (describe h hs items os_items ids names filters).2 = false)
    (r : LocalRecord) (hr : r ∈ items)
    (hunpaired : r.id ∉ (describe h hs items os_items ids names filters).1.paired) :
    r.id ∈ (describe h hs items os_items ids names filters).1.deleteLog := by
  rcases describe_result_cases h hs items os_items ids names filters with
    ⟨st, e, hlp, heq⟩ | ⟨st, hlp, hfst, _⟩
  · rw [heq] at hnp
    simp [DescribeErr.isPyAbort] at hnp
  · rw [hfst, delete_obsolete_items_eq] at hunpaired ⊢
    dsimp only at hunpaired ⊢
    refine List.mem_append_right _ ?_
    exact List.mem_map_of_mem _ (List.mem_filter.mpr ⟨hr, by simpa using hunpaired⟩)

/-- Claim C2 witness: a selective describe (`ids = ["other"]`) skips the only
external item, so its paired record `L1` stays unpaired and is deleted. -/
theorem c2_witness :
    "L1" ∈ (describe volHooks () [⟨"L1", "E1"⟩] [⟨"E1", "n1"⟩]
      (some ["other"]) none none).1.deleteLog :=
  c2_unpaired_fetched_records_deleted volHooks () [⟨"L1", "E1"⟩] [⟨"E1", "n1"⟩]
    (some ["other"]) none none rfl ⟨"L1", "E1"⟩ (by simp) (by decide)

/-- Claim C3: when a describe call ends by raising the Not-Found error of the
unresolved-selector check, the cleanup step has already executed in full (the
delete log is exactly the unpaired fetched records, in fetch order) and the
auto-creates of the pairing loop are retained (the create log is the loop's
create log) — the error neither prevents nor rolls back those state changes. -/
theorem c3_cleanup_and_creates_precede_not_found (h : Hooks σ) (hs : σ)
    (items : List LocalRecord) (os_items : List OsItem)
    (ids names : Option (List String)) (filters : Option (List Filter))
    (k v : String)
    (hnf : (describe h hs items os_items ids names filters).2 = some (.notFound k v)) :
    (describe h hs items os_items ids names filters).1.deleteLog =
      (items.filter fun it =>
        !decide (it.id ∈ (describe h hs items os_items ids names filters).1.paired)).map
        (·.id) ∧
    (describe h hs items os_items ids names filters).1.createLog =
      (describeLoop h (items_dict items) (ids.isSome || names.isSome) filters os_items
        (initState hs ids names)).1.createLog := by
  rcases describe_result_cases h hs items os_items ids names filters with
    ⟨st, e, hlp, heq⟩ | ⟨st, hlp, hfst, _⟩
  · rw [heq] at hnf
    simp at hnf
  · have hdl : st.deleteLog = [] := by
      have hinv := describeLoop_deleteLog h (items_dict items) (ids.isSome || names.isSome)
        filters os_items (initState hs ids names)
      rw [hlp] at hinv
      simpa [initState] using hinv
    constructor
    · rw [hfst, delete_obsolete_items_eq]
      dsimp only
      rw [hdl]
      simp
    · rw [hfst, delete_obsolete_items_eq, hlp]

/-- Claim C3 witness: `describe(ids=["L9"])` raises Not-Found for `L9`, yet the
unrelated obsolete record `L1` has already been deleted and the (empty) create
log is the loop's. -/
theorem c3_witness :
    (describe volHooks () [⟨"L1", "E1"⟩] [⟨"E1", "n1"⟩] (some ["L9"]) none none).1.deleteLog
        = ["L1"] ∧
      (describe volHooks () [⟨"L1", "E1"⟩] [⟨"E1", "n1"⟩]
        (some ["L9"]) none none).1.createLog = [] := by
  have hc := c3_cleanup_and_creates_precede_not_found volHooks () [⟨"L1", "E1"⟩]
    [⟨"E1", "n1"⟩] (some ["L9"]) none none "vol" "L9" rfl
  exact ⟨hc.1.trans (by decide), hc.2.trans (by decide)⟩

/-- Claim C5: for a kind in the protected set, `auto_update_db` returns the
existing record (possibly null) unchanged with no create, and consequently no
describe pass on such a describer ever records a created Local Record. -/
theorem c5_protected_kinds_never_auto_created (h : Hooks σ) (hk : h.KIND ∈ VPC_KINDS) :
    (∀ (item : Option LocalRecord) (osid : String),
      auto_update_db h.KIND h.freshId item osid = (item, none)) ∧
    ∀ (hs : σ) (items : List LocalRecord) (os_items : List OsItem)
      (ids names : Option (List String)) (filters : Option (List Filter)),
      (describe h hs items os_items ids names filters).1.createLog = [] := by
  constructor
  · intro item osid
    cases item with
    | none => simp [auto_update_db, hk]
    | some i => simp [auto_update_db]
  · intro hs items os_items ids names filters
    have hcl := describeLoop_createLog_protected h (items_dict items)
      (ids.isSome || names.isSome) filters os_items (initState hs ids names) hk
    rcases describe_result_cases h hs items os_items ids names filters with
      ⟨st, e, hlp, heq⟩ | ⟨st, hlp, hfst, _⟩
    · rw [hlp] at hcl
      rw [heq]
      simpa [initState] using hcl
    · rw [hlp] at hcl
      rw [hfst, delete_obsolete_items_eq]
      dsimp only
      simpa [initState] using hcl

/-- Claim C4: the Filter Matcher retains the record as soon as any single
filter finds a wildcard-matching value: once evaluation reaches a filter that
resolves to non-empty candidates and finds a match, the result is "retained"
(`.ok false`) for every possible remainder of the filter list — the remaining
filters are never evaluated, so the list is OR-combined across filter names,
not AND-combined. -/
theorem c4_retained_on_first_filter_match (fm : List (String × FilterTarget))
    (isFound : FilterVal → FieldVal → Except PyErr Bool) (r : ProjectedRecord)
    (pre : List Filter) (f : Filter) (rest : List Filter) (t : FilterTarget)
    (vs : List FieldVal)
    (hpre : ∀ p ∈ pre, passes_filter_through fm isFound r p)
    (ht : fm.lookup f.name = some t) (hv : resolveValues r t = .ok vs)
    (hne : vs ≠ []) (hm : anyFilterValueFound isFound f.value vs = .ok true) :
    filtered_out fm isFound (some r) (some (pre ++ f :: rest)) = .ok false := by
  rw [filtered_out_some, filtered_out_loop_of_passes fm isFound r pre _ hpre]
  have hvs : vs.isEmpty = false := by
    cases vs
    · exact absurd rfl hne
    · rfl
  simp only [filtered_out_loop, ht, hv, hvs, hm, Bool.false_eq_true, if_false]

/-- Claim C4 witness: the second filter matches, so the record is retained even
though the list continues with an unmapped filter name (whose evaluation would
have raised) — two filters of which only one matches suffice to retain. -/
theorem c4_witness :
    filtered_out [("a", .simple "a"), ("b", .simple "b")] base_is_filtering_value_found
      (some [("a", .str "x"), ("b", .str "y")])
      (some ([⟨"b", [.str "z"]⟩] ++ ⟨"a", [.str "x"]⟩ :: [⟨"unmapped", [.str "q"]⟩])) =
      .ok false :=
  c4_retained_on_first_filter_match _ _ _ _ _ _ (.simple "a") [.str "x"]
    (by
      intro p hp
      simp only [List.mem_singleton] at hp
      subst hp
      exact ⟨.simple "b", [.str "y"], rfl, rfl, by simp, rfl⟩)
    rfl rfl (by simp) rfl

/-- Claim C6 counterexample: a filter list that contains an unmapped filter
name (`bad` has no entry) does not abort the call when an earlier filter
retains the record first — `filtered_out` returns "retained", not the
Invalid-Parameter error the claim requires for every such list. -/
theorem c6_counterexample :
    (List.lookup "bad" [("a", FilterTarget.simple "a")] = none) ∧
      filtered_out [("a", .simple "a")] base_is_filtering_value_found
        (some [("a", .str "x")])
        (some [⟨"a", [.str "x"]⟩, ⟨"bad", [.str "y"]⟩]) = .ok false :=
  ⟨rfl, rfl⟩

/-- Claim C6 (amended): when the Filter Matcher reaches a filter whose name
has no entry in the active kind's Filter Map — that is, every earlier filter
passed through without retaining the record or triggering the empty-values
short-circuit — it aborts with an Invalid-Parameter error identifying that
name, whatever filters follow it (they are never evaluated). -/
theorem c6_unmapped_filter_aborts_when_reached (fm : List (String × FilterTarget))
    (isFound : FilterVal → FieldVal → Except PyErr Bool) (r : ProjectedRecord)
    (pre : List Filter) (bad : Filter) (rest : List Filter)
    (hpre : ∀ p ∈ pre, passes_filter_through fm isFound r p)
    (hbad : fm.lookup bad.name = none) :
    filtered_out fm isFound (some r) (some (pre ++ bad :: rest)) =
      .error (.invalidFilter bad.name) := by
  rw [filtered_out_some, filtered_out_loop_of_passes fm isFound r pre _ hpre]
  simp only [filtered_out_loop, hbad]

/-- Claim C6 (amended) witness: after a passing (non-matching, non-empty)
filter, the unmapped name `nope` aborts with the Invalid-Parameter error even
though yet another unmapped filter follows. -/
theorem c6_witness :
    filtered_out [("a", .simple "a")] base_is_filtering_value_found
      (some [("a", .str "x")])
      (some ([⟨"a", [.str "z"]⟩] ++ ⟨"nope", [.str "y"]⟩ :: [⟨"also", []⟩])) =
      .error (.invalidFilter "nope") :=
  c6_unmapped_filter_aborts_when_reached _ _ _ _ _ _
    (by
      intro p hp
      simp only [List.mem_singleton] at hp
      subst hp
      exact ⟨.simple "a", [.str "x"], rfl, rfl, by simp, rfl⟩)
    rfl

/-- Claim C7 counterexample: the second filter resolves to an empty
candidate-value set for the record (`b` is absent), yet the record is NOT
reported filtered out, because the first filter already retained it — the
claim's universally quantified "some filter in the list" fails. -/
theorem c7_counterexample :
    (List.lookup "b" [("a", FilterTarget.simple "a"), ("b", FilterTarget.simple "b")] =
        some (FilterTarget.simple "b")) ∧
      resolveValues [("a", FieldVal.str "x")] (.simple "b") = .ok [] ∧
      filtered_out [("a", .simple "a"), ("b", .simple "b")] base_is_filtering_value_found
        (some [("a", .str "x")])
        (some [⟨"a", [.str "x"]⟩, ⟨"b", [.str "y"]⟩]) = .ok false :=
  ⟨rfl, rfl, rfl⟩

/-- Claim C7 (amended): when the Filter Matcher reaches a filter that resolves
to an empty candidate-value set — every earlier filter passed through without
a verdict — the record is immediately reported filtered out, whatever filters
follow (even a later filter that would have matched is never evaluated). -/
theorem c7_empty_values_short_circuit_when_reached (fm : List (String × FilterTarget))
    (isFound : FilterVal → FieldVal → Except PyErr Bool) (r : ProjectedRecord)
    (pre : List Filter) (f : Filter) (rest : List Filter) (t : FilterTarget)
    (hpre : ∀ p ∈ pre, passes_filter_through fm isFound r p)
    (ht : fm.lookup f.name = some t) (hv : resolveValues r t = .ok []) :
    filtered_out fm isFound (some r) (some (pre ++ f :: rest)) = .ok true := by
  rw [filtered_out_some, filtered_out_loop_of_passes fm isFound r pre _ hpre]
  simp only [filtered_out_loop, ht, hv, List.isEmpty_nil, if_true]

/-- Claim C7 (amended) witness: the empty-resolving filter `b` is reached after
a passing filter and filters the record out, although the very next filter in
the list would have matched. -/
theorem c7_witness :
    filtered_out [("a", .simple "a"), ("b", .simple "b")] base_is_filtering_value_found
      (some [("a", .str "x")])
      (some ([⟨"a", [.str "z"]⟩] ++ ⟨"b", [.str "y"]⟩ :: [⟨"a", [.str "x"]⟩])) =
      .ok true :=
  c7_empty_values_short_circuit_when_reached _ _ _ _ _ _ (.simple "b")
    (by
      intro p hp
      simp only [List.mem_singleton] at hp
      subst hp
      exact ⟨.simple "a", [.str "x"], rfl, rfl, by simp, rfl⟩)
    rfl rfl

/-- The Local-Only loop with `filters = null` and a total post hook collects
every projection, including `None` ones, into the accumulator in fetch order. -/
lemma nonOsLoop_no_filters (h : Hooks σ) (ids : List String) (hp : TotalPost h) :
    ∀ (items : List LocalRecord) (s : σ) (acc : List (Option ProjectedRecord)),
      nonOsLoop h ids none items s acc =
        (((nonOsProjections h ids items s).1,
          acc ++ (nonOsProjections h ids items s).2), none) := by
  intro items
  induction items with
  | nil =>
    intro s acc
    simp [nonOsLoop, nonOsProjections]
  | cons item rest ih =>
    intro s acc
    obtain ⟨⟨s', fi⟩, hpf⟩ := hp s ids (h.format (some item) none) (some item)
    rcases hrec : nonOsProjections h ids rest s' with ⟨s2, out⟩
    have h1 : nonOsLoop h ids none (item :: rest) s acc =
        nonOsLoop h ids none rest s' (acc ++ [fi]) := by
      simp only [nonOsLoop, hpf, filtered_out]
    have h2 : nonOsProjections h ids (item :: rest) s = (s2, fi :: out) := by
      simp only [nonOsProjections, hpf, hrec]
    rw [h1, ih s' (acc ++ [fi]), h2, hrec]
    simp

/-- Claim C10: the Local-Only Variant appends the projected record whenever it
is not filtered out, with no truthiness gate: with `filters = null` the result
is exactly the (post-processed) projection of every fetched local record, in
order — a `None` projection is kept in the returned list, unlike the
Reconciler's loop, which suppresses falsy projections (see the C1 theorem). -/
theorem c10_local_only_keeps_null_projections (h : Hooks σ) (hs : σ)
    (items : List LocalRecord) (ids names : Option (List String)) (hp : TotalPost h) :
    nonOsDescribe h hs items ids names none =
      (((nonOsProjections h (ids.getD []) items hs).1,
        (nonOsProjections h (ids.getD []) items hs).2), none) := by
  unfold nonOsDescribe
  rw [nonOsLoop_no_filters h (ids.getD []) hp items hs []]
  simp

/-- Claim C10 witness: a projection hook returning `None` yields a result list
containing `None` under `filters = null`. -/
theorem c10_witness :
    nonOsDescribe nullFormatHooks () [⟨"L1", "E1"⟩] none none none =
      (((), [none]), none) := by
  have hc := c10_local_only_keeps_null_projections nullFormatHooks () [⟨"L1", "E1"⟩]
    none none (fun s ids fi it => ⟨(s, fi), rfl⟩)
  exact hc.trans rfl

/-- `TaggableItemsDescriber.post_format` never changes the instance state once
the tag cache is warm: `self.tags is None` fails, so no reload and no state
write happens. -/
lemma tag_post_format_frozen (tagStore : List TagRecord) (s : TagHookState)
    (ids : List String) (fi : Option ProjectedRecord) (it : Option LocalRecord)
    (r : TagHookState × Option ProjectedRecord) (c : List (String × List TagRecord))
    (htags : s.tags = some c) (hok : tag_post_format tagStore s ids fi it = .ok r) :
    r.1 = s := by
  unfold tag_post_format at hok
  cases it with
  | none =>
    cases hok
    rfl
  | some i =>
    rw [htags] at hok
    dsimp only at hok
    split at hok
    · cases hok
      rfl
    · split at hok
      · cases hok
        rfl
      · cases hok

/-- Claim C8 counterexample: on one `TaggableItemsDescriber` instance, the
first describe call bulk-loads the Tag Records once and leaves the grouped
cache in the instance state; a second describe call on the same instance
performs NO further bulk load (the fetch count stays at 1), contradicting the
claim that a subsequent call loads from the store again. -/
theorem c8_counterexample :
    tagRun1.1.hs.fetchCount = 1 ∧
      tagRun1.1.hs.tags = some [("L1", [⟨"L1", "Name", "web-1"⟩])] ∧
      tagRun2.1.hs.fetchCount = 1 :=
  ⟨rfl, rfl, rfl⟩

/-- Claim C8 (amended): the tag cache built by the post-projection hook
persists on the instance across describe calls: any describe call starting
with a warm cache leaves the instance state — the cache and the count of
bulk loads performed — exactly as it found it, reusing the previous call's
cache instead of loading Tag Records from the store again. Per-call freshness
holds only because a new describer instance is constructed per call. -/
theorem c8_cache_persists_across_calls (KIND : String)
    (fm : List (String × FilterTarget))
    (format : Option LocalRecord → Option OsItem → Option ProjectedRecord)
    (freshId : String → String) (tagStore : List TagRecord) (s : TagHookState)
    (c : List (String × List TagRecord)) (htags : s.tags = some c)
    (items : List LocalRecord) (os_items : List OsItem)
    (ids names : Option (List String)) (filters : Option (List Filter)) :
    (tagDescribe KIND fm format freshId tagStore s items os_items ids names
      filters).1.hs = s := by
  unfold tagDescribe
  have hfr : ∀ (s' : TagHookState) ids' fi it r,
      (fun x : TagHookState => x.tags = some c) s' →
      (tagHooks KIND fm format freshId tagStore).post_format s' ids' fi it = .ok r →
      r.1 = s' :=
    fun s' ids' fi it r hP hok => tag_post_format_frozen tagStore s' ids' fi it r c hP hok
  have hfrozen := describeLoop_hs_frozen (tagHooks KIND fm format freshId tagStore)
    (items_dict items) (ids.isSome || names.isSome)
    (filters.map (List.map rewriteTagFilter)) os_items (initState s ids names)
    (fun x : TagHookState => x.tags = some c) hfr htags
  rcases describe_result_cases (tagHooks KIND fm format freshId tagStore) s items os_items
      ids names (filters.map (List.map rewriteTagFilter)) with
    ⟨st, e, hlp, heq⟩ | ⟨st, hlp, hfst, _⟩
  · rw [hlp] at hfrozen
    rw [heq]
    exact hfrozen
  · rw [hlp] at hfrozen
    rw [hfst, delete_obsolete_items_eq]
    exact hfrozen

/-- Claim C8 (amended) witness: a call starting from a warm (even empty) cache
with five loads on record ends with the very same instance state. -/
theorem c8_witness :
    (tagDescribe "vol" [("status", .simple "status")] tagFormat
      (fun osid => "new-" ++ osid) tagStore1 ⟨some [], 5⟩ [⟨"L1", "E1"⟩] [⟨"E1", "n1"⟩]
      none none none).1.hs = ⟨some [], 5⟩ :=
  c8_cache_persists_across_calls "vol" [("status", .simple "status")] tagFormat
    (fun osid => "new-" ++ osid) tagStore1 ⟨some [], 5⟩ [] rfl
    [⟨"L1", "E1"⟩] [⟨"E1", "n1"⟩] none none none

/-- Folding the index-building step over a list, from any accumulator, yields
the list's own index entry when one exists, else the accumulator. -/
lemma items_dict_foldl (x : String) (b : List LocalRecord) :
    ∀ acc : Option LocalRecord,
      b.foldl (fun acc i => if i.os_id = x then some i else acc) acc =
        (items_dict b x).or acc := by
  induction b with
  | nil =>
    intro acc
    simp [items_dict, Option.or]
  | cons i b ih =>
    intro acc
    simp only [List.foldl_cons, items_dict] at ih ⊢
    rw [ih, ih (if i.os_id = x then some i else none)]
    rcases hd : b.foldl (fun acc i => if i.os_id = x then some i else acc) none with _ | v <;>
        rw [hd]
    · by_cases hix : i.os_id = x <;> simp [hix, Option.or]
    · simp [Option.or]

/-- `items_dict` over an append: the later segment wins when it has an entry. -/
lemma items_dict_append (x : String) (a b : List LocalRecord) :
    items_dict (a ++ b) x = (items_dict b x).or (items_dict a x) := by
  unfold items_dict
  rw [List.foldl_append]
  exact items_dict_foldl x b _

/-- What the fold can return: the accumulator, or a member with the looked-up
external id. -/
lemma items_dict_mem_aux (x : String) (b : List LocalRecord) :
    ∀ (acc : Option LocalRecord) (v : LocalRecord),
      b.foldl (fun acc i => if i.os_id = x then some i else acc) acc = some v →
      acc = some v ∨ (v ∈ b ∧ v.os_id = x) := by
  induction b with
  | nil => exact fun acc v h => Or.inl h
  | cons i b ih =>
    intro acc v h
    rw [List.foldl_cons] at h
    rcases ih _ v h with hacc | ⟨hm, hx⟩
    · by_cases hix : i.os_id = x
      · rw [if_pos hix] at hacc
        cases hacc
        exact Or.inr ⟨List.mem_cons_self i b, hix⟩
      · rw [if_neg hix] at hacc
        exact Or.inl hacc
    · exact Or.inr ⟨List.mem_cons_of_mem i hm, hx⟩

/-- A record returned by the external-identity index is a fetched record with
that external id. -/
lemma items_dict_mem (x : String) (items : List LocalRecord) (v : LocalRecord)
    (h : items_dict items x = some v) : v ∈ items ∧ v.os_id = x := by
  rcases items_dict_mem_aux x items none v h with hacc | hh
  · exact Option.noConfusion hacc
  · exact hh

/-- The index is populated at an external id held by some list member. -/
lemma items_dict_isSome (x : String) (b : List LocalRecord)
    (hex : ∃ r ∈ b, r.os_id = x) : ∃ v, items_dict b x = some v := by
  rcases hd : items_dict b x with _ | v
  · exfalso
    obtain ⟨r, hr, hrx⟩ := hex
    obtain ⟨l1, l2, rfl⟩ := List.append_of_mem hr
    rw [items_dict_append] at hd
    have : items_dict (r :: l2) x =
        (items_dict l2 x).or (if r.os_id = x then some r else none) := by
      have h1 := items_dict_foldl x l2 (if r.os_id = x then some r else none)
      simpa [items_dict] using h1
    rw [this] at hd
    rcases h2 : items_dict l2 x with _ | w <;> rw [h2] at hd <;>
      simp [Option.or, hrx] at hd
  · exact ⟨v, rfl⟩

/-- Two fetched records with the same id are the same record, when the fetched
ids are pairwise distinct. -/
lemma pairwise_id_inj (items : List LocalRecord)
    (hids : items.Pairwise (fun a b => a.id ≠ b.id)) (a b : LocalRecord)
    (ha : a ∈ items) (hb : b ∈ items) (hab : a.id = b.id) : a = b := by
  by_contra hne
  have hsym : Symmetric (fun a b : LocalRecord => a.id ≠ b.id) :=
    fun a b hab => Ne.symm hab
  exact (hids.forall hsym ha hb hne) hab

/-- Claim C9: when two or more fetched Local Records share an external
identity, only the last such record (in local-store fetch order) can be held
by the external-identity index: any earlier record with that identity is not
the index entry for it, is never marked paired during the pass, and is deleted
by the end-of-pass cleanup — assuming the fetched ids are pairwise distinct
(database primary keys), the generated ids are fresh, and the loop was not
aborted by a Python-level exception. -/
theorem c9_duplicate_external_identity_shadowed_deleted (h : Hooks σ) (hs : σ)
    (items : List LocalRecord) (os_items : List OsItem)
    (ids names : Option (List String)) (filters : Option (List Filter))
    (hids : items.Pairwise (fun a b => a.id ≠ b.id))
    (hfresh : ∀ s, ¬∃ r ∈ items, r.id = h.freshId s)
    (hnp : DescribeErr.isPyAbort
      (describe h hs items os_items ids names filters).2 = false)
    (l1 : List LocalRecord) (r : LocalRecord) (l2 : List LocalRecord)
    (hsplit : items = l1 ++ r :: l2) (hdup : ∃ r' ∈ l2, r'.os_id = r.os_id) :
    items_dict items r.os_id ≠ some r ∧
      r.id ∉ (describe h hs items os_items ids names filters).1.paired ∧
      r.id ∈ (describe h hs items os_items ids names filters).1.deleteLog := by
  -- (a) the index entry for r.os_id is a later record, not r
  obtain ⟨v, hv⟩ := items_dict_isSome r.os_id l2 hdup
  have hvmem : v ∈ l2 ∧ v.os_id = r.os_id := items_dict_mem r.os_id l2 v hv
  have hpw : (r :: l2).Pairwise (fun a b => a.id ≠ b.id) := by
    rw [hsplit] at hids
    exact hids.sublist (List.sublist_append_right l1 (r :: l2))
  have hvr : v ≠ r := by
    intro hcontra
    subst hcontra
    exact (List.pairwise_cons.mp hpw).1 v hvmem.1 rfl
  have hdict : items_dict items r.os_id = some v := by
    rw [hsplit, items_dict_append]
    have hcons : items_dict (r :: l2) r.os_id =
        (items_dict l2 r.os_id).or (if r.os_id = r.os_id then some r else none) := by
      have h1 := items_dict_foldl r.os_id l2 (if r.os_id = r.os_id then some r else none)
      simpa [items_dict] using h1
    rw [hcons, hv]
    simp [Option.or]
  have hne : items_dict items r.os_id ≠ some r := by
    rw [hdict]
    intro hcontra
    exact hvr (Option.some_injective _ hcontra)
  have hrmem : r ∈ items := by
    rw [hsplit]
    exact List.mem_append_right l1 (List.mem_cons_self r l2)
  -- (b) r.id never enters paired_items_ids
  rcases describe_result_cases h hs items os_items ids names filters with
    ⟨st, e, hlp, heq⟩ | ⟨st, hlp, hfst, _⟩
  · rw [heq] at hnp
    simp [DescribeErr.isPyAbort] at hnp
  · have hnotp : r.id ∉ st.paired := by
      intro hmem
      have hsrc := describeLoop_paired_source h (items_dict items)
        (ids.isSome || names.isSome) filters os_items (initState hs ids names) r.id
        (by rw [hlp]; exact hmem)
      rcases hsrc with hinit | ⟨osid, i, hdi, hri⟩ | ⟨osid, _, hrf⟩
      · simp [initState] at hinit
      · have hi := items_dict_mem osid items i hdi
        have hir : i = r := pairwise_id_inj items hids i r hi.1 hrmem hri.symm
        rw [hir] at hdi hi
        rw [← hi.2] at hdi
        exact hne hdi
      · exact hfresh osid ⟨r, hrmem, hrf⟩
    refine ⟨hne, ?_, ?_⟩
    · rw [hfst, delete_obsolete_items_eq]
      dsimp only
      exact hnotp
    · rw [hfst, delete_obsolete_items_eq]
      dsimp only
      refine List.mem_append_right _ ?_
      exact List.mem_map_of_mem _ (List.mem_filter.mpr ⟨hrmem, by simpa using hnotp⟩)

/-- Claim C9 witness: two fetched records share external id `x`; the earlier
one (`A`) is shadowed in the index by the later one (`B`), stays unpaired and
is deleted, while `B` pairs with the external item. -/
theorem c9_witness :
    items_dict [⟨"A", "x"⟩, ⟨"B", "x"⟩] "x" ≠ some ⟨"A", "x"⟩ ∧
      "A" ∉ (describe vpcHooks () [⟨"A", "x"⟩, ⟨"B", "x"⟩] [⟨"x", "n"⟩]
        none none none).1.paired ∧
      "A" ∈ (describe vpcHooks () [⟨"A", "x"⟩, ⟨"B", "x"⟩] [⟨"x", "n"⟩]
        none none none).1.deleteLog :=
  c9_duplicate_external_identity_shadowed_deleted vpcHooks ()
    [⟨"A", "x"⟩, ⟨"B", "x"⟩] [⟨"x", "n"⟩] none none none
    (by decide)
    (by
      intro s hcontra
      obtain ⟨r, hr, he⟩ := hcontra
      have hc : r.id = "C" := he
      rcases List.mem_cons.mp hr with rfl | hr2
      · exact absurd hc (by decide)
      · rcases List.mem_cons.mp hr2 with rfl | hr3
        · exact absurd hc (by decide)
        · exact absurd hr3 (by simp))
    rfl
    [] ⟨"A", "x"⟩ [⟨"B", "x"⟩] rfl ⟨⟨"B", "x"⟩, by simp, rfl⟩

/-- Claim C5 witness: a `vpc` describe over an unmatched external item creates
nothing (and, in particular, the pass still deletes and pairs as usual). -/
theorem c5_witness :
    vpcHooks.KIND ∈ VPC_KINDS ∧
      (describe vpcHooks () [⟨"L1", "E1"⟩] [⟨"E2", "n2"⟩] none none none).1.createLog = [] :=
  ⟨by decide,
    (c5_protected_kinds_never_auto_created vpcHooks (by decide)).2 ()
      [⟨"L1", "E1"⟩] [⟨"E2", "n2"⟩] none none none⟩

end Ec2
